import Mathlib

/-!
Verification of the Barchart news harvester (`src/U1.py`).

This file gives a shallow embedding of the harvester's pure logic:
the day-window calculator `date_str_to_timestamps_for_day`, the
timestamp-resolution rules of `parse_date_string_to_timestamp`, and the
pagination loop of `fetch_barchart_news` (cursor management, per-story
filtering, deduplication, stopping conditions).  External collaborators
(HTTP transport, BeautifulSoup extraction, the `dateutil` parser) enter
the embedding as abstract inputs: a page is already a list of extracted
story fields, and a resolved timestamp is carried as an `Option Int`.
-/

namespace Barchart

/-! ## Calendar arithmetic

Days-from-civil computation (proleptic Gregorian), used to express epoch
timestamps of the `datetime` values the Python code builds. -/

/-- Gregorian leap-year test, as `calendar.isleap` / `datetime` use. -/
def isLeap (y : Nat) : Bool :=
  y % 4 == 0 && (y % 100 != 0 || y % 400 == 0)

/-- Number of days in month `m` of year `y` (months are 1-based). -/
def daysInMonth (y m : Nat) : Nat :=
  if m = 2 then (if isLeap y then 29 else 28)
  else if m = 4 ∨ m = 6 ∨ m = 9 ∨ m = 11 then 30
  else 31

/-- Days from 1970-01-01 to the civil date `(y, m, d)` (can be negative),
the standard era-based computation. -/
def days_from_civil (y : Int) (m d : Nat) : Int :=
  let y2 : Int := if m ≤ 2 then y - 1 else y
  let era : Int := (if 0 ≤ y2 then y2 else y2 - 399) / 400
  let yoe : Int := y2 - era * 400
  let mp : Nat := (m + 9) % 12
  let doy : Nat := (153 * mp + 2) / 5 + d - 1
  let doe : Int := yoe * 365 + yoe / 4 - yoe / 100 + (doy : Int)
  era * 146097 + doe - 719468

/-- Epoch timestamp (seconds) of wall-clock `(y,m,d,h,mi,sec)` read at a
fixed UTC offset of `off` seconds (east positive), converted to UTC. -/
def utcOfLocal (y : Int) (m d h mi sec : Nat) (off : Int) : Int :=
  days_from_civil y m d * 86400 + ((h * 3600 + mi * 60 + sec : Nat) : Int) - off

/-! ## `date_str_to_timestamps_for_day` (src/U1.py lines 81-101)

The Python code does `datetime.datetime.strptime(date_str, '%Y%m%d')`.
CPython's `strptime` is regex-based: `%Y` matches exactly four digits,
`%m` matches `1[0-2]|0[1-9]|[1-9]`, `%d` matches
`3[01]|[12]\d|0[1-9]|[1-9]`, the whole string must be consumed, and the
regex engine tries the alternatives of each directive in that order
(backtracking to achieve a full match).  After the regex matches,
constructing the `datetime` raises `ValueError` when the day is out of
range for the month (or the year is 0).  The functions below reproduce
exactly this: ordered candidate splits for `%m` and `%d`, first full
match wins, then calendar validity. -/

/-- Numeric value of a decimal digit character. -/
def digitVal (c : Char) : Nat := c.toNat - 48

/-- Matches `%Y`: exactly four leading digits; returns the year and the
rest of the input. -/
def fourDigitYear : List Char → Option (Nat × List Char)
  | a :: b :: c :: d :: rest =>
    if a.isDigit && b.isDigit && c.isDigit && d.isDigit then
      some (digitVal a * 1000 + digitVal b * 100 + digitVal c * 10 + digitVal d, rest)
    else none
  | _ => none

/-- Ordered candidate matches of `%m` = `1[0-2]|0[1-9]|[1-9]` at the head
of the input, in the regex engine's preference order. -/
def monthCands (l : List Char) : List (Nat × List Char) :=
  (match l with
   | '1' :: c :: rest =>
     if '0' ≤ c && c ≤ '2' then [(10 + digitVal c, rest)] else []
   | _ => []) ++
  (match l with
   | '0' :: c :: rest =>
     if '1' ≤ c && c ≤ '9' then [(digitVal c, rest)] else []
   | _ => []) ++
  (match l with
   | c :: rest =>
     if '1' ≤ c && c ≤ '9' then [(digitVal c, rest)] else []
   | _ => [])

/-- Ordered candidate matches of `%d` = `3[01]|[12]\d|0[1-9]|[1-9]` at
the head of the input, in the regex engine's preference order. -/
def dayCands (l : List Char) : List (Nat × List Char) :=
  (match l with
   | '3' :: c :: rest =>
     if '0' ≤ c && c ≤ '1' then [(30 + digitVal c, rest)] else []
   | _ => []) ++
  (match l with
   | c1 :: c2 :: rest =>
     if ('1' ≤ c1 && c1 ≤ '2') && c2.isDigit then
       [(digitVal c1 * 10 + digitVal c2, rest)]
     else []
   | _ => []) ++
  (match l with
   | '0' :: c :: rest =>
     if '1' ≤ c && c ≤ '9' then [(digitVal c, rest)] else []
   | _ => []) ++
  (match l with
   | c :: rest =>
     if '1' ≤ c && c ≤ '9' then [(digitVal c, rest)] else []
   | _ => [])

/-- First month/day split that consumes the whole remaining input, in
backtracking order: `%m` alternatives outermost, `%d` alternatives inner. -/
def matchMD (l : List Char) : Option (Nat × Nat) :=
  (((monthCands l).map fun mr =>
      (dayCands mr.2).filterMap fun dr =>
        if dr.2 = ([] : List Char) then some (mr.1, dr.1) else none).flatten).head?

/-- Model of `datetime.datetime.strptime(s, '%Y%m%d')`: `none` is the
`ValueError` path (the code's "InvalidDate" outcome). -/
def parseYYYYMMDD (s : String) : Option (Nat × Nat × Nat) :=
  match fourDigitYear s.data with
  | none => none
  | some (y, rest) =>
    match matchMD rest with
    | none => none
    | some (m, d) =>
      if 1 ≤ y ∧ d ≤ daysInMonth y m then some (y, m, d) else none

/-- Outcome of `date_str_to_timestamps_for_day`: a strptime
`ValueError` is caught and returns `(None, None)` (`invalidDate`); an
`OverflowError` from `astimezone` is *not* caught (the `except` clause
at src/U1.py:99 names only `ValueError`) and propagates out of the
function (`overflowError`); otherwise the two integer timestamps are
returned. -/
inductive DayWindow where
  | invalidDate
  | overflowError
  | window (startTs endTs : Int)
deriving DecidableEq

/-- Value of `int(end.timestamp())` where `end` is local
`23:59:59.999999` of the day whose local midnight has epoch second
`base`.  `end.timestamp()` is the double nearest to the exact value
`m + 0.999999` with `m = base + 86399`, and `int()` truncates toward
zero, so:

  * `m < 0`: the exact value is negative and non-integral, so
    truncation toward zero gives `m + 1` whatever the rounding did
    within the unit interval;
  * `0 ≤ m < 2^34`: the ulp at `m + 0.999999` is at most `2^-19 <
    2·10^-6`, so the nearest double is still strictly below `m + 1`
    and truncation gives `m`;
  * `2^34 ≤ m`: the ulp is at least `2^-18 > 2·10^-6`, so `m + 1`
    (at distance `10^-6`) is the nearest double (no tie is possible
    since `2·10^-6` is not a power of two) and the result is `m + 1`. -/
def pyTruncEndTs (base : Int) : Int :=
  let m := base + 86399
  if m < 0 then m + 1
  else if m < 17179869184 then m
  else m + 1

/-- Embedding of `date_str_to_timestamps_for_day` (src/U1.py:81-101).
The code builds the naive midnight of the parsed date, attaches the
fixed offset `UTC-5` (`datetime.timezone(datetime.timedelta(hours=-5))`),
converts start (local midnight) and end (local `23:59:59.999999`) to
UTC with `astimezone`, and returns `int(start.timestamp())` and
`int(end.timestamp())`.  `astimezone(utc)` adds the 5 hours and raises
`OverflowError` when the resulting instant falls in year 10000, which
among parseable dates happens exactly for local date 9999-12-31
(epoch day 2932896); that exception is uncaught.  The start instant is
an exact integer; the end value is `pyTruncEndTs base`.  A strptime
failure returns `(None, None)`. -/
def date_str_to_timestamps_for_day (s : String) : DayWindow :=
  match parseYYYYMMDD s with
  | none => .invalidDate
  | some (y, m, d) =>
    if 2932896 ≤ days_from_civil (y : Int) m d then .overflowError
    else
      let base : Int := days_from_civil (y : Int) m d * 86400 + 18000
      .window base (pyTruncEndTs base)

/-! ## `parse_date_string_to_timestamp` (src/U1.py lines 103-143)

The code first calls the external `dateutil.parser.parse` and then
post-processes the parsed `datetime`:

  * if the parsed result has no timezone (`dt_object.tzinfo is None`),
    attach the fixed fallback `UTC-5`, and additionally, if the original
    string contains neither `'am'` nor `'pm'` (case-insensitive
    substring search), overwrite the time-of-day with local noon;
  * if the parsed year is the sentinel `1900`, substitute the current
    processing year;
  * convert to UTC and return the integer epoch timestamp.

The external parse result is embedded as a `ParsedDT` record (wall-clock
fields plus an optional timezone offset in seconds); `resolveParsed`
translates the post-processing steps verbatim. -/

/-- Lowercased characters of a string (model of Python `str.lower()`
for the ASCII feed names involved). -/
def lowerChars (s : String) : List Char :=
  s.data.map Char.toLower

/-- Digits-only string to number; `none` when empty or non-digit. -/
def digitsToNat? (ds : List Char) : Option Nat :=
  if ds ≠ [] ∧ ds.all Char.isDigit then
    some (ds.foldl (fun n c => n * 10 + digitVal c) 0)
  else none

/-- Model of Python `int(s)` on a string: an optional leading minus sign
followed by decimal digits; `none` is the `ValueError` path. -/
def pyToInt? (s : String) : Option Int :=
  match s.data with
  | '-' :: ds => (digitsToNat? ds).map fun n => -(n : Int)
  | ds => (digitsToNat? ds).map fun n => (n : Int)

/-- One extracted story div, after the external HTML extraction. -/
structure Story where
  newsId : Option String
  title : String
  url : String
  feedName : String
  publishedStr : String
  ts : Option Int
  summary : String
deriving DecidableEq

/-- One accepted news item, as appended to `all_news_items`. -/
structure NewsItem where
  id : String
  title : String
  url : String
  publishedStrOriginal : String
  ts : Int
  summary : String
deriving DecidableEq

/-- One JSON page reply, reduced to the two fields the loop reads. -/
structure PageResponse where
  content : Option (List Story)
  timestamp : Option String
deriving DecidableEq

/-- The remote feed: API call number (1-based) and cursor sent, to an
optional page (`none` = transport/decode failure). -/
def Feed : Type := Nat → Int → Option PageResponse

/-- Harvest configuration (module constants / arguments in the source). -/
structure Config where
  window : Option (Int × Int)
  countLimit : Nat
  maxCalls : Nat

/-- Mutable loop state of `fetch_barchart_news`. -/
structure HarvestState where
  collected : List NewsItem
  seenIds : List String
  cursor : Int
  callNum : Nat
deriving DecidableEq

/-- Reason a harvest stopped.  The source signals these by prints and a
`stop_fetching` flag; each constructor tags exactly one stop site:
`transportError` = the two `except` branches, `exhaustedFeed` = the
"no HTML content and no 'timestamp'" branch, `belowWindow` = the
older-than-target-start break, `limitReached` = the
`news_count_limit` stop, `safetyLimitReached` = the loop guard
`api_call_num < MAX_API_CALLS` failing. -/
inductive StopReason where
  | transportError
  | exhaustedFeed
  | belowWindow
  | limitReached
  | safetyLimitReached
deriving DecidableEq

/-- Result of processing one page's story list. -/
structure BatchResult where
  collected : List NewsItem
  seenIds : List String
  batchMin : Option Int
  below : Bool
deriving DecidableEq

/-- Is `t` strictly below the window start? (src/U1.py:280). -/
def belowWindowB (window : Option (Int × Int)) (t : Int) : Bool :=
  match window with
  | none => false
  | some (ws, _) => decide (t < ws)

/-- Acceptance window test (src/U1.py:287): no target date, or
`start <= ts <= end`. -/
def windowOkB (window : Option (Int × Int)) (t : Int) : Bool :=
  match window with
  | none => true
  | some (ws, we) => decide (ws ≤ t) && decide (t ≤ we)

/-- The `NewsItem` built at src/U1.py:290-297. -/
def storyItem (s : Story) (i : String) (t : Int) : NewsItem :=
  ⟨i, s.title, s.url, s.publishedStr, t, s.summary⟩

/-- Update of `earliest_valid_ts_in_batch_for_fallback`
(src/U1.py:277-278). -/
def minUpd (bmin : Option Int) (t : Int) : Option Int :=
  match bmin with
  | none => some t
  | some b => some (min b t)

/-- Embedding of the `for story_div in stories` loop
(src/U1.py:235-299).  Per story, in source order: skip when the id (or
link/meta tag) is missing; skip when the feed name is not "barchart"
(case-insensitive); skip when the published string is unparseable;
update the batch minimum; in windowed mode break out with the
below-window flag when `ts < start`; otherwise accept when the id is
unseen and the window test passes, inserting the id immediately. -/
def processStories (window : Option (Int × Int)) :
    List Story → List NewsItem → List String → Option Int → BatchResult
  | [], coll, seen, bmin => ⟨coll, seen, bmin, false⟩
  | s :: rest, coll, seen, bmin =>
    match s.newsId with
    | none => processStories window rest coll seen bmin
    | some i =>
      if lowerChars s.feedName ≠ "barchart".data then
        processStories window rest coll seen bmin
      else
        match s.ts with
        | none => processStories window rest coll seen bmin
        | some t =>
          let bmin' := minUpd bmin t
          if belowWindowB window t then ⟨coll, seen, bmin', true⟩
          else if i ∈ seen then processStories window rest coll seen bmin'
          else if windowOkB window t then
            processStories window rest (coll ++ [storyItem s i t]) (i :: seen) bmin'
          else processStories window rest coll seen bmin'

/-- Next-cursor computation (src/U1.py:306-329): take the page's
`'timestamp'` hint when it is present, parses as an integer, and is
strictly less than the current cursor; otherwise keep the cursor
unchanged.  (The source computes a batch-minimum "fallback" value and
mentions it in comments, but no code path ever assigns it to the
cursor.) -/
def nextCursor (cur : Int) (hint : Option String) : Int :=
  match hint with
  | none => cur
  | some s =>
    match pyToInt? s with
    | none => cur
    | some n => if n < cur then n else cur

/-- Outcome of one iteration of the `while` body. -/
inductive StepResult where
  | cont (st : HarvestState)
  | stop (st : HarvestState) (r : StopReason)
deriving DecidableEq

/-- The count-limit check (src/U1.py:331-333): only in unbounded mode
(`not target_date_str`), stop once `len(all_news_items)` has reached
`news_count_limit`. -/
def checkLimit (cfg : Config) (st : HarvestState) : StepResult :=
  match cfg.window with
  | some _ => .cont st
  | none =>
    if cfg.countLimit ≤ st.collected.length then .stop st .limitReached
    else .cont st

/-- One iteration of the `while` body (src/U1.py:193-336), to be run
when the loop guard holds.  In source order: make the API call with the
current cursor (counting it); on failure stop (`transportError`); when
both `content` and `timestamp` are falsy stop (`exhaustedFeed`);
process the stories; on a below-window break stop (`belowWindow`)
before any cursor update; otherwise advance the cursor from the page
hint and run the count-limit check. -/
def harvestStep (cfg : Config) (feed : Feed) (st : HarvestState) : StepResult :=
  let n := st.callNum + 1
  match feed n st.cursor with
  | none => .stop { st with callNum := n } .transportError
  | some page =>
    match page.content with
    | none =>
      if page.timestamp = none then .stop { st with callNum := n } .exhaustedFeed
      else
        checkLimit cfg
          { st with cursor := nextCursor st.cursor page.timestamp, callNum := n }
    | some stories =>
      let b := processStories cfg.window stories st.collected st.seenIds none
      if b.below then
        .stop ⟨b.collected, b.seenIds, st.cursor, n⟩ .belowWindow
      else
        checkLimit cfg
          ⟨b.collected, b.seenIds, nextCursor st.cursor page.timestamp, n⟩

/-- The `while not stop_fetching and api_call_num < MAX_API_CALLS` loop.
Returns the final state, the stop reason, and the trace of cursor
values actually sent, one per API call.  `fuel` only bounds the
recursion; the driver passes `cfg.maxCalls`, which its guard makes
sufficient (each iteration increments `callNum` by one). -/
def runHarvest (cfg : Config) (feed : Feed) :
    Nat → HarvestState → HarvestState × StopReason × List Int
  | 0, st => (st, .safetyLimitReached, [])
  | fuel + 1, st =>
    if st.callNum < cfg.maxCalls then
      match harvestStep cfg feed st with
      | .stop st' r => (st', r, [st.cursor])
      | .cont st' =>
        let res := runHarvest cfg feed fuel st'
        (res.1, res.2.1, st.cursor :: res.2.2)
    else (st, .safetyLimitReached, [])

/-- Full harvest outcome: returned items (after the final defensive
filter), the internal state when the loop exited (before that filter),
the stop reason, and the cursor trace. -/
structure HarvestResult where
  items : List NewsItem
  finalState : HarvestState
  reason : StopReason
  trace : List Int
deriving DecidableEq

/-- Initial cursor (src/U1.py:158 and 163): `window.end + 1` in
windowed mode, the current instant `now` otherwise. -/
def initialCursor (cfg : Config) (now : Int) : Int :=
  match cfg.window with
  | some (_, we) => we + 1
  | none => now

/-- Embedding of `fetch_barchart_news` (src/U1.py:146-351).  The
initial cursor is `window.end + 1` in windowed mode (src/U1.py:158) and
`now` otherwise (src/U1.py:163); the loop then runs; in windowed mode a
final pass re-filters the collected items to the window
(src/U1.py:341-347). -/
def fetch_barchart_news (cfg : Config) (feed : Feed) (now : Int) : HarvestResult :=
  let r := runHarvest cfg feed cfg.maxCalls ⟨[], [], initialCursor cfg now, 0⟩
  let items :=
    match cfg.window with
    | some (ws, we) =>
      r.1.collected.filter fun it => decide (ws ≤ it.ts) && decide (it.ts ≤ we)
    | none => r.1.collected
  ⟨items, r.1, r.2.1, r.2.2⟩

/-! ## Concrete scenarios

Closed instances used to settle the claims on explicit inputs. -/

/-- A Barchart story with a given id and resolved timestamp. -/
def mkStory (i : String) (t : Int) : Story :=
  ⟨some i, "title " ++ i, "url " ++ i, "Barchart", "pub " ++ i, some t, "sum " ++ i⟩

/-- Unbounded-mode configuration with a generous count limit and two
allowed API calls. -/
def cfgTwo : Config := ⟨none, 100, 2⟩

/-- A feed whose every page carries one story and a `'timestamp'` hint
equal to the cursor the harvest starts from: the hint never makes strict
progress. -/
def stallFeed : Feed := fun _ _ => some ⟨some [mkStory "s1" 500], some "1000"⟩

/-- A feed whose every page carries one story with resolved timestamp
900 and no `'timestamp'` hint at all: only the batch minimum could make
progress. -/
def fallbackFeed : Feed := fun _ _ => some ⟨some [mkStory "f1" 900], none⟩

/-- Windowed configuration with window `[100, 200]`. -/
def cfgWin : Config := ⟨some (100, 200), 35, 10⟩

/-- A page whose first story is below the window start (ts 50) and whose
second story would match the window (ts 150). -/
def belowPage : PageResponse := ⟨some [mkStory "old1" 50, mkStory "good1" 150], none⟩

/-- Feed serving `belowPage` on every call. -/
def belowFeed : Feed := fun _ _ => some belowPage

/-- A story above the window end of `cfgWin` (ts 300, fresh id). -/
def aboveStory : Story := mkStory "a1" 300

/-- Feed whose first page holds only `aboveStory` and whose later pages
are exhausted (no content, no hint). -/
def aboveFeed : Feed := fun n _ =>
  if n = 1 then some ⟨some [aboveStory], none⟩ else some ⟨none, none⟩

/-- Feed whose first page holds one story inside the `cfgWin` window
(ts 150) plus a progressing hint, and whose later pages are exhausted. -/
def inWinFeed : Feed := fun n _ =>
  if n = 1 then some ⟨some [mkStory "w1" 150], some "150"⟩ else some ⟨none, none⟩

/-- Unbounded-mode configuration with `maxCalls = 5`. -/
def cfgFive : Config := ⟨none, 1000, 5⟩

/-- A feed that never signals exhaustion: call `n` serves one fresh
story (id `n`, timestamp `1000 - n`) and no hint. -/
def relentlessFeed : Feed := fun n _ => some ⟨some [mkStory (toString n) (1000 - n)], none⟩

/-- A feed whose pages carry truthy HTML that parses to zero story divs,
and no `'timestamp'` hint. -/
def emptyHtmlFeed : Feed := fun _ _ => some ⟨some [], none⟩

/-- A feed that is exhausted from the first call: falsy content and
falsy `'timestamp'`. -/
def exhaustedFeed0 : Feed := fun _ _ => some ⟨none, none⟩

/-! ## Helper lemmas -/

/-- State carried by a step outcome, whether it continued or stopped. -/
def stateOf : StepResult → HarvestState
  | .cont st => st
  | .stop st _ => st

/-- Invariant maintained by the loop: the seen-id set is exactly the id
multiset of the collected items, those ids are pairwise distinct, and
every collected item passes the window test. -/
def stateInv (cfg : Config) (st : HarvestState) : Prop :=
  (∀ j, j ∈ st.seenIds ↔ j ∈ st.collected.map NewsItem.id) ∧
  (st.collected.map NewsItem.id).Nodup ∧
  (∀ it ∈ st.collected, windowOkB cfg.window it.ts = true)

lemma nextCursor_le (cur : Int) (h : Option String) : nextCursor cur h ≤ cur := by
  cases h with
  | none => simp [nextCursor]
  | some s =>
    simp only [nextCursor]
    cases hp : pyToInt? s with
    | none => simp
    | some n =>
      simp only []
      split
      · omega
      · omega

lemma nextCursor_none (cur : Int) : nextCursor cur none = cur := rfl

lemma nextCursor_stuck (cur : Int) (s : String) (n : Int) (hp : pyToInt? s = some n)
    (hn : ¬ n < cur) : nextCursor cur (some s) = cur := by
  simp [nextCursor, hp, hn]

lemma nextCursor_lt_of_ne (cur : Int) (h : Option String)
    (hne : nextCursor cur h ≠ cur) : nextCursor cur h < cur := by
  rcases lt_or_eq_of_le (nextCursor_le cur h) with hlt | heq
  · exact hlt
  · exact absurd heq hne

lemma checkLimit_state (cfg : Config) (st : HarvestState) :
    stateOf (checkLimit cfg st) = st := by
  cases hw : cfg.window with
  | none =>
    by_cases hl : cfg.countLimit ≤ st.collected.length
    · simp [checkLimit, hw, hl, stateOf]
    · simp [checkLimit, hw, hl, stateOf]
  | some w => simp [checkLimit, hw, stateOf]

lemma checkLimit_cont (cfg : Config) (st st' : HarvestState)
    (h : checkLimit cfg st = .cont st') : st' = st := by
  have := checkLimit_state cfg st
  rw [h] at this
  exact this

lemma stateOf_cont (st : HarvestState) : stateOf (.cont st) = st := rfl

lemma stateOf_stop (st : HarvestState) (r : StopReason) : stateOf (.stop st r) = st := rfl

lemma processStories_inv (w : Option (Int × Int)) (stories : List Story) :
    ∀ (coll : List NewsItem) (seen : List String) (bmin : Option Int),
      (∀ j, j ∈ seen ↔ j ∈ coll.map NewsItem.id) →
      (coll.map NewsItem.id).Nodup →
      (∀ it ∈ coll, windowOkB w it.ts = true) →
      (∀ j, j ∈ (processStories w stories coll seen bmin).seenIds ↔
          j ∈ (processStories w stories coll seen bmin).collected.map NewsItem.id) ∧
      ((processStories w stories coll seen bmin).collected.map NewsItem.id).Nodup ∧
      (∀ it ∈ (processStories w stories coll seen bmin).collected,
          windowOkB w it.ts = true) := by
  induction stories with
  | nil =>
    intro coll seen bmin h1 h2 h3
    exact ⟨h1, h2, h3⟩
  | cons s rest ih =>
    intro coll seen bmin h1 h2 h3
    simp only [processStories]
    cases hid : s.newsId with
    | none => exact ih coll seen bmin h1 h2 h3
    | some i =>
      by_cases hfeed : lowerChars s.feedName ≠ "barchart".data
      · simp only [if_pos hfeed]
        exact ih coll seen bmin h1 h2 h3
      · simp only [if_neg hfeed]
        cases hts : s.ts with
        | none => exact ih coll seen bmin h1 h2 h3
        | some t =>
          by_cases hbw : belowWindowB w t = true
          · simp only [if_pos hbw]
            exact ⟨h1, h2, h3⟩
          · simp only [if_neg hbw]
            by_cases hseen : i ∈ seen
            · simp only [if_pos hseen]
              exact ih coll seen (minUpd bmin t) h1 h2 h3
            · simp only [if_neg hseen]
              by_cases hwk : windowOkB w t = true
              · simp only [if_pos hwk]
                apply ih
                · intro j
                  simp only [List.mem_cons, List.map_append, List.map_cons,
                    List.map_nil, List.mem_append, List.mem_singleton, storyItem]
                  rw [h1 j]
                  tauto
                · simp only [List.map_append, List.map_cons, List.map_nil, storyItem]
                  rw [List.nodup_append]
                  refine ⟨h2, List.nodup_singleton _, ?_⟩
                  intro a ha hb
                  simp only [List.mem_singleton] at hb
                  exact hseen ((h1 i).2 (hb ▸ ha))
                · intro it hit
                  rcases List.mem_append.1 hit with hin | hnew
                  · exact h3 it hin
                  · simp only [List.mem_singleton] at hnew
                    subst hnew
                    exact hwk
              · simp only [if_neg hwk]
                exact ih coll seen (minUpd bmin t) h1 h2 h3

lemma harvestStep_cases (cfg : Config) (feed : Feed) (st : HarvestState) :
    (∃ n pt, stateOf (harvestStep cfg feed st) =
        { st with cursor := nextCursor st.cursor pt, callNum := n }) ∨
    (∃ n pt stories,
        stateOf (harvestStep cfg feed st) =
          { collected :=
              (processStories cfg.window stories st.collected st.seenIds none).collected,
            seenIds :=
              (processStories cfg.window stories st.collected st.seenIds none).seenIds,
            cursor := nextCursor st.cursor pt,
            callNum := n }) := by
  cases hf : feed (st.callNum + 1) st.cursor with
  | none =>
    refine Or.inl ⟨st.callNum + 1, none, ?_⟩
    simp only [harvestStep, hf, stateOf, nextCursor_none]
  | some page =>
    cases hc : page.content with
    | none =>
      by_cases ht : page.timestamp = none
      · refine Or.inl ⟨st.callNum + 1, none, ?_⟩
        simp only [harvestStep, hf, hc, if_pos ht, stateOf, nextCursor_none]
      · refine Or.inl ⟨st.callNum + 1, page.timestamp, ?_⟩
        simp only [harvestStep, hf, hc, if_neg ht]
        rw [checkLimit_state]
    | some stories =>
      by_cases hb :
          (processStories cfg.window stories st.collected st.seenIds none).below = true
      · refine Or.inr ⟨st.callNum + 1, none, stories, ?_⟩
        simp only [harvestStep, hf, hc, if_pos hb, stateOf, nextCursor_none]
      · refine Or.inr ⟨st.callNum + 1, page.timestamp, stories, ?_⟩
        simp only [harvestStep, hf, hc, if_neg hb]
        rw [checkLimit_state]

lemma harvestStep_cursor_le (cfg : Config) (feed : Feed) (st : HarvestState) :
    (stateOf (harvestStep cfg feed st)).cursor ≤ st.cursor := by
  rcases harvestStep_cases cfg feed st with ⟨n, pt, h⟩ | ⟨n, pt, stories, h⟩ <;>
    rw [h] <;> exact nextCursor_le st.cursor pt

lemma harvestStep_inv (cfg : Config) (feed : Feed) (st : HarvestState)
    (hinv : stateInv cfg st) : stateInv cfg (stateOf (harvestStep cfg feed st)) := by
  rcases harvestStep_cases cfg feed st with ⟨n, pt, h⟩ | ⟨n, pt, stories, h⟩
  · rw [h]
    exact hinv
  · rw [h]
    exact processStories_inv cfg.window stories st.collected st.seenIds none
      hinv.1 hinv.2.1 hinv.2.2

lemma runHarvest_succ_stop {cfg : Config} {feed : Feed} {st st' : HarvestState}
    {r : StopReason} (fuel : Nat) (hg : st.callNum < cfg.maxCalls)
    (hs : harvestStep cfg feed st = .stop st' r) :
    runHarvest cfg feed (fuel + 1) st = (st', r, [st.cursor]) := by
  simp [runHarvest, hg, hs]

lemma runHarvest_succ_cont {cfg : Config} {feed : Feed} {st st' : HarvestState}
    (fuel : Nat) (hg : st.callNum < cfg.maxCalls)
    (hs : harvestStep cfg feed st = .cont st') :
    runHarvest cfg feed (fuel + 1) st =
      ((runHarvest cfg feed fuel st').1, (runHarvest cfg feed fuel st').2.1,
        st.cursor :: (runHarvest cfg feed fuel st').2.2) := by
  simp [runHarvest, hg, hs]

lemma runHarvest_guard_false {cfg : Config} {feed : Feed} {st : HarvestState}
    (fuel : Nat) (hg : ¬ st.callNum < cfg.maxCalls) :
    runHarvest cfg feed (fuel + 1) st = (st, .safetyLimitReached, []) := by
  simp [runHarvest, hg]

lemma runHarvest_trace_head (cfg : Config) (feed : Feed) :
    ∀ (fuel : Nat) (st : HarvestState) (x : Int) (l : List Int),
      (runHarvest cfg feed fuel st).2.2 = x :: l → x = st.cursor := by
  intro fuel st x l h
  cases fuel with
  | zero => simp [runHarvest] at h
  | succ fuel =>
    by_cases hg : st.callNum < cfg.maxCalls
    · cases hs : harvestStep cfg feed st with
      | stop st' r =>
        rw [runHarvest_succ_stop fuel hg hs] at h
        exact (List.cons.inj h.symm).1
      | cont st' =>
        rw [runHarvest_succ_cont fuel hg hs] at h
        exact (List.cons.inj h.symm).1
    · rw [runHarvest_guard_false fuel hg] at h
      simp at h

lemma runHarvest_trace_chain (cfg : Config) (feed : Feed) :
    ∀ (fuel : Nat) (st : HarvestState),
      List.Chain' (fun a b => b ≤ a) (runHarvest cfg feed fuel st).2.2 := by
  intro fuel
  induction fuel with
  | zero => intro st; simp [runHarvest]
  | succ fuel ih =>
    intro st
    by_cases hg : st.callNum < cfg.maxCalls
    · cases hs : harvestStep cfg feed st with
      | stop st' r =>
        rw [runHarvest_succ_stop fuel hg hs]
        simp
      | cont st' =>
        rw [runHarvest_succ_cont fuel hg hs]
        rw [List.chain'_cons']
        refine ⟨?_, ih st'⟩
        intro y hy
        cases htr : (runHarvest cfg feed fuel st').2.2 with
        | nil => rw [htr] at hy; simp at hy
        | cons x l =>
          rw [htr] at hy
          simp only [List.head?_cons, Option.mem_def, Option.some.injEq] at hy
          have hx := runHarvest_trace_head cfg feed fuel st' x l htr
          have hcur : st'.cursor ≤ st.cursor := by
            have hle := harvestStep_cursor_le cfg feed st
            rw [hs] at hle
            exact hle
          omega
    · rw [runHarvest_guard_false fuel hg]
      simp

lemma runHarvest_trace_len (cfg : Config) (feed : Feed) :
    ∀ (fuel : Nat) (st : HarvestState),
      (runHarvest cfg feed fuel st).2.2.length ≤ fuel := by
  intro fuel
  induction fuel with
  | zero => intro st; simp [runHarvest]
  | succ fuel ih =>
    intro st
    by_cases hg : st.callNum < cfg.maxCalls
    · cases hs : harvestStep cfg feed st with
      | stop st' r =>
        rw [runHarvest_succ_stop fuel hg hs]
        simp
      | cont st' =>
        rw [runHarvest_succ_cont fuel hg hs]
        simpa using Nat.succ_le_succ (ih st')
    · rw [runHarvest_guard_false fuel hg]
      simp

lemma runHarvest_inv (cfg : Config) (feed : Feed) :
    ∀ (fuel : Nat) (st : HarvestState), stateInv cfg st →
      stateInv cfg (runHarvest cfg feed fuel st).1 := by
  intro fuel
  induction fuel with
  | zero => intro st h; exact h
  | succ fuel ih =>
    intro st h
    by_cases hg : st.callNum < cfg.maxCalls
    · cases hs : harvestStep cfg feed st with
      | stop st' r =>
        rw [runHarvest_succ_stop fuel hg hs]
        have := harvestStep_inv cfg feed st h
        rw [hs] at this
        exact this
      | cont st' =>
        rw [runHarvest_succ_cont fuel hg hs]
        apply ih
        have := harvestStep_inv cfg feed st h
        rw [hs] at this
        exact this
    · rw [runHarvest_guard_false fuel hg]
      exact h

lemma fetch_finalState (cfg : Config) (feed : Feed) (now : Int) :
    (fetch_barchart_news cfg feed now).finalState =
      (runHarvest cfg feed cfg.maxCalls ⟨[], [], initialCursor cfg now, 0⟩).1 := rfl

lemma fetch_reason (cfg : Config) (feed : Feed) (now : Int) :
    (fetch_barchart_news cfg feed now).reason =
      (runHarvest cfg feed cfg.maxCalls ⟨[], [], initialCursor cfg now, 0⟩).2.1 := rfl

lemma fetch_trace (cfg : Config) (feed : Feed) (now : Int) :
    (fetch_barchart_news cfg feed now).trace =
      (runHarvest cfg feed cfg.maxCalls ⟨[], [], initialCursor cfg now, 0⟩).2.2 := rfl

lemma fetch_items_windowed {cfg : Config} {ws we : Int} (feed : Feed) (now : Int)
    (hw : cfg.window = some (ws, we)) :
    (fetch_barchart_news cfg feed now).items =
      (fetch_barchart_news cfg feed now).finalState.collected.filter
        (fun it => decide (ws ≤ it.ts) && decide (it.ts ≤ we)) := by
  simp [fetch_barchart_news, hw]

lemma fetch_items_unbounded {cfg : Config} (feed : Feed) (now : Int)
    (hw : cfg.window = none) :
    (fetch_barchart_news cfg feed now).items =
      (fetch_barchart_news cfg feed now).finalState.collected := by
  simp [fetch_barchart_news, hw]

lemma fetch_inv (cfg : Config) (feed : Feed) (now : Int) :
    stateInv cfg (fetch_barchart_news cfg feed now).finalState := by
  rw [fetch_finalState]
  apply runHarvest_inv
  refine ⟨?_, ?_, ?_⟩
  · intro j; simp
  · simp
  · intro it hit; simp at hit

lemma fetch_items_sub (cfg : Config) (feed : Feed) (now : Int) :
    (fetch_barchart_news cfg feed now).items.Sublist
      (fetch_barchart_news cfg feed now).finalState.collected := by
  rcases hw : cfg.window with _ | ⟨ws, we⟩
  · rw [fetch_items_unbounded feed now hw]
  · rw [fetch_items_windowed feed now hw]
    exact List.filter_sublist _

lemma processStories_skip_id {w : Option (Int × Int)} {s : Story}
    {rest : List Story} {coll : List NewsItem} {seen : List String} {bmin : Option Int}
    (hid : s.newsId = none) :
    processStories w (s :: rest) coll seen bmin = processStories w rest coll seen bmin := by
  simp [processStories, hid]

lemma processStories_skip_feed {w : Option (Int × Int)} {s : Story} {i : String}
    {rest : List Story} {coll : List NewsItem} {seen : List String} {bmin : Option Int}
    (hid : s.newsId = some i) (hfeed : lowerChars s.feedName ≠ "barchart".data) :
    processStories w (s :: rest) coll seen bmin = processStories w rest coll seen bmin := by
  simp [processStories, hid, hfeed]

lemma processStories_skip_ts {w : Option (Int × Int)} {s : Story} {i : String}
    {rest : List Story} {coll : List NewsItem} {seen : List String} {bmin : Option Int}
    (hid : s.newsId = some i) (hfeed : lowerChars s.feedName = "barchart".data)
    (hts : s.ts = none) :
    processStories w (s :: rest) coll seen bmin = processStories w rest coll seen bmin := by
  simp [processStories, hid, hfeed, hts]

lemma processStories_below_head {w : Option (Int × Int)} {s : Story} {i : String} {t : Int}
    {rest : List Story} {coll : List NewsItem} {seen : List String} {bmin : Option Int}
    (hid : s.newsId = some i) (hfeed : lowerChars s.feedName = "barchart".data)
    (hts : s.ts = some t) (hbw : belowWindowB w t = true) :
    processStories w (s :: rest) coll seen bmin = ⟨coll, seen, minUpd bmin t, true⟩ := by
  simp [processStories, hid, hfeed, hts, hbw]

lemma processStories_accept {w : Option (Int × Int)} {s : Story} {i : String} {t : Int}
    {rest : List Story} {coll : List NewsItem} {seen : List String} {bmin : Option Int}
    (hid : s.newsId = some i) (hfeed : lowerChars s.feedName = "barchart".data)
    (hts : s.ts = some t) (hbw : belowWindowB w t = false) (hseen : i ∉ seen)
    (hwk : windowOkB w t = true) :
    processStories w (s :: rest) coll seen bmin =
      processStories w rest (coll ++ [storyItem s i t]) (i :: seen) (minUpd bmin t) := by
  simp [processStories, hid, hfeed, hts, hbw, hseen, hwk]

lemma processStories_reject_seen {w : Option (Int × Int)} {s : Story} {i : String} {t : Int}
    {rest : List Story} {coll : List NewsItem} {seen : List String} {bmin : Option Int}
    (hid : s.newsId = some i) (hfeed : lowerChars s.feedName = "barchart".data)
    (hts : s.ts = some t) (hbw : belowWindowB w t = false) (hseen : i ∈ seen) :
    processStories w (s :: rest) coll seen bmin =
      processStories w rest coll seen (minUpd bmin t) := by
  simp [processStories, hid, hfeed, hts, hbw, hseen]

lemma processStories_reject_window {w : Option (Int × Int)} {s : Story} {i : String}
    {t : Int} {rest : List Story} {coll : List NewsItem} {seen : List String}
    {bmin : Option Int}
    (hid : s.newsId = some i) (hfeed : lowerChars s.feedName = "barchart".data)
    (hts : s.ts = some t) (hbw : belowWindowB w t = false) (hseen : i ∉ seen)
    (hwk : windowOkB w t = false) :
    processStories w (s :: rest) coll seen bmin =
      processStories w rest coll seen (minUpd bmin t) := by
  simp [processStories, hid, hfeed, hts, hbw, hseen, hwk]

lemma processStories_below_suffix (w : Option (Int × Int)) (stories : List Story) :
    ∀ (post : List Story) (coll : List NewsItem) (seen : List String) (bmin : Option Int),
      (processStories w stories coll seen bmin).below = true →
      processStories w (stories ++ post) coll seen bmin =
        processStories w stories coll seen bmin := by
  induction stories with
  | nil =>
    intro post coll seen bmin h
    simp [processStories] at h
  | cons s rest ih =>
    intro post coll seen bmin h
    rw [List.cons_append]
    cases hid : s.newsId with
    | none =>
      simp only [processStories_skip_id hid] at h ⊢
      exact ih post coll seen bmin h
    | some i =>
      by_cases hfeed : lowerChars s.feedName ≠ "barchart".data
      · simp only [processStories_skip_feed hid hfeed] at h ⊢
        exact ih post coll seen bmin h
      · rw [not_not] at hfeed
        cases hts : s.ts with
        | none =>
          simp only [processStories_skip_ts hid hfeed hts] at h ⊢
          exact ih post coll seen bmin h
        | some t =>
          by_cases hbw : belowWindowB w t = true
          · simp only [processStories_below_head hid hfeed hts hbw]
          · rw [Bool.not_eq_true] at hbw
            by_cases hseen : i ∈ seen
            · simp only [processStories_reject_seen hid hfeed hts hbw hseen] at h ⊢
              exact ih post coll seen (minUpd bmin t) h
            · by_cases hwk : windowOkB w t = true
              · simp only [processStories_accept hid hfeed hts hbw hseen hwk] at h ⊢
                exact ih post _ _ (minUpd bmin t) h
              · rw [Bool.not_eq_true] at hwk
                simp only [processStories_reject_window hid hfeed hts hbw hseen hwk] at h ⊢
                exact ih post coll seen (minUpd bmin t) h

lemma processStories_seen_iff (w : Option (Int × Int)) (stories : List Story) :
    ∀ (coll : List NewsItem) (seen : List String) (bmin : Option Int),
      (∀ j, j ∈ seen ↔ j ∈ coll.map NewsItem.id) →
      ∀ j, j ∈ (processStories w stories coll seen bmin).seenIds ↔
        j ∈ (processStories w stories coll seen bmin).collected.map NewsItem.id := by
  induction stories with
  | nil =>
    intro coll seen bmin h1
    exact h1
  | cons s rest ih =>
    intro coll seen bmin h1
    cases hid : s.newsId with
    | none =>
      rw [processStories_skip_id hid]
      exact ih coll seen bmin h1
    | some i =>
      by_cases hfeed : lowerChars s.feedName ≠ "barchart".data
      · rw [processStories_skip_feed hid hfeed]
        exact ih coll seen bmin h1
      · rw [not_not] at hfeed
        cases hts : s.ts with
        | none =>
          rw [processStories_skip_ts hid hfeed hts]
          exact ih coll seen bmin h1
        | some t =>
          by_cases hbw : belowWindowB w t = true
          · rw [processStories_below_head hid hfeed hts hbw]
            exact h1
          · rw [Bool.not_eq_true] at hbw
            by_cases hseen : i ∈ seen
            · rw [processStories_reject_seen hid hfeed hts hbw hseen]
              exact ih coll seen (minUpd bmin t) h1
            · by_cases hwk : windowOkB w t = true
              · rw [processStories_accept hid hfeed hts hbw hseen hwk]
                apply ih
                intro j
                simp only [List.mem_cons, List.map_append, List.map_cons, List.map_nil,
                  List.mem_append, List.mem_singleton, storyItem]
                rw [h1 j]
                tauto
              · rw [Bool.not_eq_true] at hwk
                rw [processStories_reject_window hid hfeed hts hbw hseen hwk]
                exact ih coll seen (minUpd bmin t) h1

lemma harvestStep_exhausted {cfg : Config} {feed : Feed} {st : HarvestState}
    (hf : feed (st.callNum + 1) st.cursor = some ⟨none, none⟩) :
    harvestStep cfg feed st =
      .stop { st with callNum := st.callNum + 1 } .exhaustedFeed := by
  simp [harvestStep, hf]

lemma utcOfLocal_midnight (y m d : Nat) :
    utcOfLocal (y : Int) m d 0 0 0 (-18000) =
      days_from_civil (y : Int) m d * 86400 + 18000 := by
  simp [utcOfLocal]

lemma utcOfLocal_dayend (y m d : Nat) :
    utcOfLocal (y : Int) m d 23 59 59 (-18000) =
      days_from_civil (y : Int) m d * 86400 + 104399 := by
  simp only [utcOfLocal]
  push_cast
  ring

lemma dayWindow_inv {s : String} {y m d : Nat} {st en : Int}
    (hp : parseYYYYMMDD s = some (y, m, d))
    (hw : date_str_to_timestamps_for_day s = .window st en) :
    st = days_from_civil (y : Int) m d * 86400 + 18000 ∧ en = pyTruncEndTs st := by
  simp only [date_str_to_timestamps_for_day, hp] at hw
  by_cases hov : 2932896 ≤ days_from_civil (y : Int) m d
  · simp [hov] at hw
  · simp only [if_neg hov, DayWindow.window.injEq] at hw
    obtain ⟨h1, h2⟩ := hw
    refine ⟨h1.symm, ?_⟩
    rw [← h2, h1]

lemma pyTruncEndTs_mid {base : Int} (h0 : 0 ≤ base + 86399)
    (h1 : base + 86399 < 17179869184) :
    pyTruncEndTs base = base + 86399 := by
  simp only [pyTruncEndTs]
  rw [if_neg (by omega), if_pos h1]

lemma pyTruncEndTs_neg {base : Int} (h : base + 86399 < 0) :
    pyTruncEndTs base = base + 86400 := by
  simp only [pyTruncEndTs]
  rw [if_pos h]
  omega

lemma pyTruncEndTs_big {base : Int} (h : 17179869184 ≤ base + 86399) :
    pyTruncEndTs base = base + 86400 := by
  simp only [pyTruncEndTs]
  rw [if_neg (by omega), if_neg (by omega)]
  omega

/-! ## Claim theorems -/

/-- C4 is false as stated: for the well-formed date `19691230` the code
returns end timestamp `-68400` (= the *next* local midnight, because
Python's `int()` truncates the negative float `-68400.000001` toward
zero), not the local 23:59:59 instant `-68401`; and for the well-formed
date `99991231` the function raises an uncaught `OverflowError` instead
of returning a window or failing with `InvalidDate`. -/
theorem C4_counterexample :
    date_str_to_timestamps_for_day "19691230" = .window (-154800) (-68400) ∧
    utcOfLocal 1969 12 30 23 59 59 (-18000) = -68401 ∧
    ((-68400 : Int) ≠ -68401) ∧
    date_str_to_timestamps_for_day "99991231" = .overflowError :=
  ⟨by decide, by decide, by decide, by decide⟩

/-- C4 amended: for every well-formed `YYYYMMDD` date that returns a
window, `start` is exactly local midnight at the fixed UTC-5 offset
converted to UTC; `end` is `int()` of the float timestamp of local
23:59:59.999999, which equals the local 23:59:59 instant exactly when
that instant lies in `[0, 2^34)` (dates 1969-12-31 through 2514-05-28);
for earlier dates toward-zero truncation yields that instant plus one
(the next local midnight), and from 2514-05-29 on the double rounding
of the `.999999` also yields it plus one; `20250611` gives
`[2025-06-11T05:00:00Z, 2025-06-12T04:59:59Z]`; `99991231` raises an
uncaught `OverflowError`; malformed strings fail with `InvalidDate`. -/
theorem C4_amended_window_calculator :
    (∀ (s : String) (y m d : Nat) (st en : Int),
        parseYYYYMMDD s = some (y, m, d) →
        date_str_to_timestamps_for_day s = .window st en →
        st = utcOfLocal (y : Int) m d 0 0 0 (-18000)) ∧
    (∀ (s : String) (y m d : Nat) (st en : Int),
        parseYYYYMMDD s = some (y, m, d) →
        date_str_to_timestamps_for_day s = .window st en →
        0 ≤ utcOfLocal (y : Int) m d 23 59 59 (-18000) →
        utcOfLocal (y : Int) m d 23 59 59 (-18000) < 17179869184 →
        en = utcOfLocal (y : Int) m d 23 59 59 (-18000)) ∧
    (∀ (s : String) (y m d : Nat) (st en : Int),
        parseYYYYMMDD s = some (y, m, d) →
        date_str_to_timestamps_for_day s = .window st en →
        utcOfLocal (y : Int) m d 23 59 59 (-18000) < 0 →
        en = utcOfLocal (y : Int) m d 23 59 59 (-18000) + 1) ∧
    (∀ (s : String) (y m d : Nat) (st en : Int),
        parseYYYYMMDD s = some (y, m, d) →
        date_str_to_timestamps_for_day s = .window st en →
        17179869184 ≤ utcOfLocal (y : Int) m d 23 59 59 (-18000) →
        en = utcOfLocal (y : Int) m d 23 59 59 (-18000) + 1) ∧
    date_str_to_timestamps_for_day "20250611" = .window 1749618000 1749704399 ∧
    date_str_to_timestamps_for_day "99991231" = .overflowError ∧
    date_str_to_timestamps_for_day "2025-06-11" = .invalidDate ∧
    date_str_to_timestamps_for_day "" = .invalidDate := by
  refine ⟨?_, ?_, ?_, ?_, by decide, by decide, by decide, by decide⟩
  · intro s y m d st en hp hw
    rw [(dayWindow_inv hp hw).1, utcOfLocal_midnight]
  · intro s y m d st en hp hw h0 h1
    obtain ⟨hst, hen⟩ := dayWindow_inv hp hw
    rw [utcOfLocal_dayend] at h0 h1 ⊢
    rw [hen, hst, pyTruncEndTs_mid (by omega) (by omega)]
    omega
  · intro s y m d st en hp hw h0
    obtain ⟨hst, hen⟩ := dayWindow_inv hp hw
    rw [utcOfLocal_dayend] at h0 ⊢
    rw [hen, hst, pyTruncEndTs_neg (by omega)]
    omega
  · intro s y m d st en hp hw h0
    obtain ⟨hst, hen⟩ := dayWindow_inv hp hw
    rw [utcOfLocal_dayend] at h0 ⊢
    rw [hen, hst, pyTruncEndTs_big (by omega)]
    omega

/-- Witness for C4's amended theorem: the in-range date `20250611` ends
at its local 23:59:59 instant, the pre-epoch date `19691230` at that
instant plus one. -/
theorem C4_witness :
    (1749704399 : Int) = utcOfLocal 2025 6 11 23 59 59 (-18000) ∧
    (-68400 : Int) = utcOfLocal 1969 12 30 23 59 59 (-18000) + 1 :=
  ⟨C4_amended_window_calculator.2.1 "20250611" 2025 6 11 1749618000 1749704399
      (by decide) (by decide) (by decide) (by decide),
   C4_amended_window_calculator.2.2.1 "19691230" 1969 12 30 (-154800) (-68400)
      (by decide) (by decide) (by decide)⟩

/-- C1 is false on the code: against a feed whose next-cursor hint
equals the current cursor (no strict progress, and no usable batch
fallback), the harvest issues a second request with the *same* cursor
value and terminates only via the safety limit — the cursor sequence
`[1000, 1000]` is not strictly decreasing and no stall error is ever
raised. -/
theorem C1_counterexample :
    (fetch_barchart_news cfgTwo stallFeed 1000).trace = [1000, 1000] ∧
    (fetch_barchart_news cfgTwo stallFeed 1000).reason = .safetyLimitReached ∧
    ¬ List.Chain' (fun a b => b < a)
        (fetch_barchart_news cfgTwo stallFeed 1000).trace := by
  refine ⟨by decide, by decide, ?_⟩
  intro hch
  rw [(by decide :
    (fetch_barchart_news cfgTwo stallFeed 1000).trace = [1000, 1000])] at hch
  rw [List.chain'_cons] at hch
  omega

/-- C1 amended: the cursor sequence across successive page requests is
non-increasing and every cursor change made by the advance computation
is a strict decrease; but when neither the page hint nor anything else
makes strict progress the cursor stays *unchanged* and the loop issues
another request — the code never raises a stall error. -/
theorem C1_amended_cursor_monotonic :
    (∀ (cur : Int) (h : Option String), nextCursor cur h ≤ cur) ∧
    (∀ (cur : Int) (h : Option String),
        nextCursor cur h ≠ cur → nextCursor cur h < cur) ∧
    (∀ cur : Int, nextCursor cur none = cur) ∧
    (∀ (cur : Int) (s : String) (n : Int), pyToInt? s = some n → ¬ n < cur →
        nextCursor cur (some s) = cur) ∧
    (∀ (cfg : Config) (feed : Feed) (now : Int),
        List.Chain' (fun a b => b ≤ a) (fetch_barchart_news cfg feed now).trace) := by
  refine ⟨nextCursor_le, nextCursor_lt_of_ne, nextCursor_none, nextCursor_stuck, ?_⟩
  intro cfg feed now
  rw [fetch_trace]
  exact runHarvest_trace_chain cfg feed cfg.maxCalls _

/-- Witness for C1's amended theorem at concrete cursors. -/
theorem C1_witness :
    nextCursor 1000 (some "997") < 1000 ∧ nextCursor 1000 (some "1000") = 1000 :=
  ⟨C1_amended_cursor_monotonic.2.1 1000 (some "997") (by decide),
   C1_amended_cursor_monotonic.2.2.2.1 1000 "1000" 1000 (by decide) (by decide)⟩

/-- C2 fails on the code: for a page with no next-cursor hint whose
batch minimum timestamp 900 is strictly less than the current cursor
1000, the batch minimum is duly computed (`some 900`) but the next
request is still issued with cursor 1000 — the fallback the source's
comments promise is never applied. -/
theorem C2_fallback_never_applied :
    processStories none [mkStory "f1" 900] [] [] none =
      ⟨[storyItem (mkStory "f1" 900) "f1" 900], ["f1"], some 900, false⟩ ∧
    (fetch_barchart_news cfgTwo fallbackFeed 1000).trace = [1000, 1000] ∧
    (fetch_barchart_news cfgTwo fallbackFeed 1000).reason = .safetyLimitReached :=
  ⟨by decide, by decide, by decide⟩

/-- C3: in windowed mode, a candidate whose resolved `publishedAt` is
strictly below the window start stops processing immediately: the page's
remaining records are never examined (appending them changes nothing and
nothing is accepted from the triggering record on), and the loop stops
with `belowWindow` without requesting a further page; concretely, a page
holding one below-window record followed by an in-window record yields
an empty harvest terminated with `belowWindow` after a single request. -/
theorem C3_below_window_early_stop :
    (∀ (ws we t : Int) (s : Story) (post : List Story) (coll : List NewsItem)
        (seen : List String) (bmin : Option Int) (i : String),
        s.newsId = some i → lowerChars s.feedName = "barchart".data →
        s.ts = some t → t < ws →
        processStories (some (ws, we)) (s :: post) coll seen bmin =
          ⟨coll, seen, minUpd bmin t, true⟩) ∧
    (∀ (w : Option (Int × Int)) (stories post : List Story) (coll : List NewsItem)
        (seen : List String) (bmin : Option Int),
        (processStories w stories coll seen bmin).below = true →
        processStories w (stories ++ post) coll seen bmin =
          processStories w stories coll seen bmin) ∧
    (∀ (cfg : Config) (feed : Feed) (st st' : HarvestState) (fuel : Nat),
        st.callNum < cfg.maxCalls →
        harvestStep cfg feed st = .stop st' .belowWindow →
        runHarvest cfg feed (fuel + 1) st = (st', .belowWindow, [st.cursor])) ∧
    (fetch_barchart_news cfgWin belowFeed 0).reason = .belowWindow ∧
    (fetch_barchart_news cfgWin belowFeed 0).items = [] ∧
    (fetch_barchart_news cfgWin belowFeed 0).trace = [201] := by
  refine ⟨?_, processStories_below_suffix, ?_, by decide, by decide, by decide⟩
  · intro ws we t s post coll seen bmin i hid hfeed hts ht
    apply processStories_below_head hid hfeed hts
    simp [belowWindowB, ht]
  · intro cfg feed st st' fuel hg hs
    exact runHarvest_succ_stop fuel hg hs

/-- Witness for C3: the below-window trigger and single-request stop at
concrete inputs. -/
theorem C3_witness :
    processStories (some (100, 200)) [mkStory "old1" 50, mkStory "good1" 150]
        [] [] none = ⟨[], [], minUpd none 50, true⟩ ∧
    runHarvest cfgWin belowFeed (9 + 1) ⟨[], [], 201, 0⟩ =
      (⟨[], [], 201, 1⟩, .belowWindow, [201]) :=
  ⟨C3_below_window_early_stop.1 100 200 50 (mkStory "old1" 50)
      [mkStory "good1" 150] [] [] none "old1" (by decide) (by decide) (by decide)
      (by decide),
   C3_below_window_early_stop.2.2.1 cfgWin belowFeed ⟨[], [], 201, 0⟩
      ⟨[], [], 201, 1⟩ 9 (by decide) (by decide)⟩

/-- C6: with a window configured, every returned item lies inside the
window — both in the loop state at acceptance time and after the final
defensive re-filter; without a window, the final pass is the identity
and a candidate's acceptance is independent of its timestamp (only the
feed-name, parseability and dedup checks apply). -/
theorem C6_window_containment :
    (∀ (cfg : Config) (feed : Feed) (now ws we : Int), cfg.window = some (ws, we) →
        ∀ it ∈ (fetch_barchart_news cfg feed now).items,
          ws ≤ it.ts ∧ it.ts ≤ we) ∧
    (∀ (cfg : Config) (feed : Feed) (now ws we : Int), cfg.window = some (ws, we) →
        ∀ it ∈ (fetch_barchart_news cfg feed now).finalState.collected,
          ws ≤ it.ts ∧ it.ts ≤ we) ∧
    (∀ (cfg : Config) (feed : Feed) (now : Int), cfg.window = none →
        (fetch_barchart_news cfg feed now).items =
          (fetch_barchart_news cfg feed now).finalState.collected) ∧
    (∀ (s : Story) (rest : List Story) (coll : List NewsItem) (seen : List String)
        (bmin : Option Int) (i : String) (t : Int),
        s.newsId = some i → lowerChars s.feedName = "barchart".data →
        s.ts = some t → i ∉ seen →
        processStories none (s :: rest) coll seen bmin =
          processStories none rest (coll ++ [storyItem s i t]) (i :: seen)
            (minUpd bmin t)) := by
  refine ⟨?_, ?_, ?_, ?_⟩
  · intro cfg feed now ws we hw it hmem
    rw [fetch_items_windowed feed now hw] at hmem
    rw [List.mem_filter] at hmem
    have := hmem.2
    simp only [Bool.and_eq_true, decide_eq_true_eq] at this
    exact this
  · intro cfg feed now ws we hw it hmem
    have h := (fetch_inv cfg feed now).2.2 it hmem
    rw [hw] at h
    simp only [windowOkB, Bool.and_eq_true, decide_eq_true_eq] at h
    exact h
  · intro cfg feed now hw
    exact fetch_items_unbounded feed now hw
  · intro s rest coll seen bmin i t hid hfeed hts hseen
    exact processStories_accept hid hfeed hts rfl hseen rfl

/-- Witness for C6: the containment facts instantiated on a concrete
windowed harvest that accepts one item. -/
theorem C6_witness :
    (100 ≤ (storyItem (mkStory "w1" 150) "w1" 150).ts ∧
      (storyItem (mkStory "w1" 150) "w1" 150).ts ≤ 200) ∧
    (fetch_barchart_news cfgTwo fallbackFeed 1000).items =
      (fetch_barchart_news cfgTwo fallbackFeed 1000).finalState.collected :=
  ⟨C6_window_containment.1 cfgWin inWinFeed 0 100 200 (by decide)
      (storyItem (mkStory "w1" 150) "w1" 150) (by decide),
   C6_window_containment.2.2.1 cfgTwo fallbackFeed 1000 (by decide)⟩

/-- C7 is false as an unrestricted iff: in a windowed harvest, the
candidate `aboveStory` (id `"a1"`, timestamp 300 above the window end
200) is considered while the dedup store is empty — its id is not
present — and yet it is not accepted: the harvest output and the store
both stay empty. -/
theorem C7_counterexample :
    aboveStory.newsId = some "a1" ∧ aboveStory.ts = some 300 ∧
    processStories (some (100, 200)) [aboveStory] [] [] none =
      ⟨[], [], some 300, false⟩ ∧
    (fetch_barchart_news cfgWin aboveFeed 0).items = [] ∧
    (fetch_barchart_news cfgWin aboveFeed 0).finalState.seenIds = [] :=
  ⟨by decide, by decide, by decide, by decide, by decide⟩

/-- C7 amended: a candidate (with id, Barchart feed name and parseable
timestamp, not triggering the below-window stop) is accepted iff its id
is unseen *and* the window check passes; acceptance appends the item and
inserts the id in the same step, rejection leaves both untouched; hence
the final output of every harvest contains no two records with equal
id. -/
theorem C7_amended_dedup :
    (∀ (w : Option (Int × Int)) (s : Story) (rest : List Story)
        (coll : List NewsItem) (seen : List String) (bmin : Option Int)
        (i : String) (t : Int),
        s.newsId = some i → lowerChars s.feedName = "barchart".data →
        s.ts = some t → belowWindowB w t = false → i ∉ seen →
        windowOkB w t = true →
        processStories w (s :: rest) coll seen bmin =
          processStories w rest (coll ++ [storyItem s i t]) (i :: seen)
            (minUpd bmin t)) ∧
    (∀ (w : Option (Int × Int)) (s : Story) (rest : List Story)
        (coll : List NewsItem) (seen : List String) (bmin : Option Int)
        (i : String) (t : Int),
        s.newsId = some i → lowerChars s.feedName = "barchart".data →
        s.ts = some t → belowWindowB w t = false → i ∈ seen →
        processStories w (s :: rest) coll seen bmin =
          processStories w rest coll seen (minUpd bmin t)) ∧
    (∀ (w : Option (Int × Int)) (s : Story) (rest : List Story)
        (coll : List NewsItem) (seen : List String) (bmin : Option Int)
        (i : String) (t : Int),
        s.newsId = some i → lowerChars s.feedName = "barchart".data →
        s.ts = some t → belowWindowB w t = false → i ∉ seen →
        windowOkB w t = false →
        processStories w (s :: rest) coll seen bmin =
          processStories w rest coll seen (minUpd bmin t)) ∧
    (∀ (cfg : Config) (feed : Feed) (now : Int),
        ((fetch_barchart_news cfg feed now).items.map NewsItem.id).Nodup) := by
  refine ⟨?_, ?_, ?_, ?_⟩
  · intro w s rest coll seen bmin i t hid hfeed hts hbw hseen hwk
    exact processStories_accept hid hfeed hts hbw hseen hwk
  · intro w s rest coll seen bmin i t hid hfeed hts hbw hseen
    exact processStories_reject_seen hid hfeed hts hbw hseen
  · intro w s rest coll seen bmin i t hid hfeed hts hbw hseen hwk
    exact processStories_reject_window hid hfeed hts hbw hseen hwk
  · intro cfg feed now
    have hsub := (fetch_items_sub cfg feed now).map NewsItem.id
    exact (fetch_inv cfg feed now).2.1.sublist hsub

/-- Witness for C7's amended theorem: accept and reject at concrete
candidates. -/
theorem C7_witness :
    processStories (some (100, 200)) [mkStory "w1" 150] [] [] none =
      processStories (some (100, 200)) []
        ([] ++ [storyItem (mkStory "w1" 150) "w1" 150]) ["w1"] (minUpd none 150) ∧
    processStories (some (100, 200)) [aboveStory] [] [] none =
      processStories (some (100, 200)) [] [] [] (minUpd none 300) :=
  ⟨C7_amended_dedup.1 (some (100, 200)) (mkStory "w1" 150) [] [] [] none "w1" 150
      (by decide) (by decide) (by decide) (by decide) (by decide) (by decide),
   C7_amended_dedup.2.2.1 (some (100, 200)) aboveStory [] [] [] none "a1" 300
      (by decide) (by decide) (by decide) (by decide) (by decide) (by decide)⟩

/-- C8: every harvest performs at most `maxCalls` page fetches; with
`maxCalls = 5` against a feed that never signals exhaustion the harvest
performs exactly 5 fetches, stops with the safety-limit reason, and
still returns the five records accepted from the five fetched pages. -/
theorem C8_safety_limit :
    (∀ (cfg : Config) (feed : Feed) (now : Int),
        (fetch_barchart_news cfg feed now).trace.length ≤ cfg.maxCalls) ∧
    (fetch_barchart_news cfgFive relentlessFeed 10000).trace.length = 5 ∧
    (fetch_barchart_news cfgFive relentlessFeed 10000).reason
      = .safetyLimitReached ∧
    (fetch_barchart_news cfgFive relentlessFeed 10000).items.map NewsItem.id
      = ["1", "2", "3", "4", "5"] ∧
    (fetch_barchart_news cfgFive relentlessFeed 10000).items.length = 5 := by
  refine ⟨?_, by decide, by decide, by decide, by decide⟩
  intro cfg feed now
  rw [fetch_trace]
  exact runHarvest_trace_len cfg feed cfg.maxCalls _

/-- C9 is false as stated: a page whose (truthy) content yields zero
candidate records and which carries no next-cursor hint does *not*
terminate the harvest — against such a feed, a second request is issued
with the unchanged cursor and the harvest ends with the safety limit,
not with the exhausted-feed reason. -/
theorem C9_counterexample :
    emptyHtmlFeed 1 42 = some ⟨some [], none⟩ ∧
    (fetch_barchart_news cfgTwo emptyHtmlFeed 42).trace = [42, 42] ∧
    (fetch_barchart_news cfgTwo emptyHtmlFeed 42).reason = .safetyLimitReached :=
  ⟨by decide, by decide, by decide⟩

/-- C9 amended: the exhausted-feed stop fires exactly when the page's
raw content is absent/empty *and* there is no next-cursor hint; in that
case the loop stops with `exhaustedFeed` immediately, issuing no further
request (but a page with nonempty content extracting to zero candidates
does not trigger it). -/
theorem C9_amended_exhausted :
    (∀ (cfg : Config) (feed : Feed) (st : HarvestState),
        feed (st.callNum + 1) st.cursor = some ⟨none, none⟩ →
        harvestStep cfg feed st =
          .stop { st with callNum := st.callNum + 1 } .exhaustedFeed) ∧
    (∀ (cfg : Config) (feed : Feed) (st : HarvestState) (fuel : Nat),
        st.callNum < cfg.maxCalls →
        feed (st.callNum + 1) st.cursor = some ⟨none, none⟩ →
        runHarvest cfg feed (fuel + 1) st =
          ({ st with callNum := st.callNum + 1 }, .exhaustedFeed, [st.cursor])) := by
  refine ⟨?_, ?_⟩
  · intro cfg feed st hf
    exact harvestStep_exhausted hf
  · intro cfg feed st fuel hg hf
    exact runHarvest_succ_stop fuel hg (harvestStep_exhausted hf)

/-- Witness for C9's amended theorem on a concretely exhausted feed. -/
theorem C9_witness :
    runHarvest cfgTwo exhaustedFeed0 (1 + 1) ⟨[], [], 42, 0⟩ =
      (⟨[], [], 42, 1⟩, .exhaustedFeed, [42]) :=
  C9_amended_exhausted.2 cfgTwo exhaustedFeed0 ⟨[], [], 42, 0⟩ 1
    (by decide) (by decide)

/-- C10: ids enter the seen-id store only at acceptance: a candidate
rejected because its id is already seen, or because its timestamp fails
the window check, changes neither the store nor the collected list (only
the batch minimum); consequently, within a page pass and at the end of
every harvest, the seen-id store holds exactly the ids of the collected
records. -/
theorem C10_seen_ids_match_collected :
    (∀ (cfg : Config) (feed : Feed) (now : Int) (j : String),
        j ∈ (fetch_barchart_news cfg feed now).finalState.seenIds ↔
        j ∈ (fetch_barchart_news cfg feed now).finalState.collected.map
              NewsItem.id) ∧
    (∀ (w : Option (Int × Int)) (stories : List Story) (coll : List NewsItem)
        (seen : List String) (bmin : Option Int),
        (∀ j, j ∈ seen ↔ j ∈ coll.map NewsItem.id) →
        ∀ j, j ∈ (processStories w stories coll seen bmin).seenIds ↔
          j ∈ (processStories w stories coll seen bmin).collected.map
                NewsItem.id) ∧
    (∀ (w : Option (Int × Int)) (s : Story) (rest : List Story)
        (coll : List NewsItem) (seen : List String) (bmin : Option Int)
        (i : String) (t : Int),
        s.newsId = some i → lowerChars s.feedName = "barchart".data →
        s.ts = some t → belowWindowB w t = false → i ∈ seen →
        (processStories w (s :: rest) coll seen bmin).collected =
            (processStories w rest coll seen (minUpd bmin t)).collected ∧
        (processStories w (s :: rest) coll seen bmin).seenIds =
            (processStories w rest coll seen (minUpd bmin t)).seenIds) ∧
    (∀ (w : Option (Int × Int)) (s : Story) (rest : List Story)
        (coll : List NewsItem) (seen : List String) (bmin : Option Int)
        (i : String) (t : Int),
        s.newsId = some i → lowerChars s.feedName = "barchart".data →
        s.ts = some t → belowWindowB w t = false → i ∉ seen →
        windowOkB w t = false →
        (processStories w (s :: rest) coll seen bmin).collected =
            (processStories w rest coll seen (minUpd bmin t)).collected ∧
        (processStories w (s :: rest) coll seen bmin).seenIds =
            (processStories w rest coll seen (minUpd bmin t)).seenIds) := by
  refine ⟨?_, ?_, ?_, ?_⟩
  · intro cfg feed now j
    exact (fetch_inv cfg feed now).1 j
  · intro w stories coll seen bmin h1 j
    exact processStories_seen_iff w stories coll seen bmin h1 j
  · intro w s rest coll seen bmin i t hid hfeed hts hbw hseen
    rw [processStories_reject_seen hid hfeed hts hbw hseen]
    exact ⟨rfl, rfl⟩
  · intro w s rest coll seen bmin i t hid hfeed hts hbw hseen hwk
    rw [processStories_reject_window hid hfeed hts hbw hseen hwk]
    exact ⟨rfl, rfl⟩

/-- Witness for C10: the store-equals-collected-ids fact and a rejected
duplicate candidate at concrete inputs. -/
theorem C10_witness :
    ("x1" ∈ (processStories none [mkStory "x1" 7] [] [] none).seenIds ↔
      "x1" ∈ (processStories none [mkStory "x1" 7] [] [] none).collected.map
        NewsItem.id) ∧
    ((processStories none [mkStory "x1" 7] [] ["x1"] none).collected =
        (processStories none ([] : List Story) [] ["x1"] (minUpd none 7)).collected ∧
      (processStories none [mkStory "x1" 7] [] ["x1"] none).seenIds =
        (processStories none ([] : List Story) [] ["x1"] (minUpd none 7)).seenIds) :=
  ⟨C10_seen_ids_match_collected.2.1 none [mkStory "x1" 7] [] [] none
      (by simp) "x1",
   C10_seen_ids_match_collected.2.2.1 none (mkStory "x1" 7) [] [] ["x1"] none
      "x1" 7 (by decide) (by decide) (by decide) (by decide) (by decide)⟩

end Barchart
